import Mathlib

/-!
Shallow embedding of `src/chunk_type.rs` from the pngme repository.

The source defines a single value type `ChunkType` holding four `u8`
fields (`ancillary`, `private`, `reserved`, `safe_to_copy`), with
- `bytes()` returning the four bytes in order,
- `is_valid()` checking per-byte case rules,
- `TryFrom<[u8; 4]>` (called `from_bytes` in the spec) validating that
  every byte is an ASCII letter,
- `FromStr` (called `from_text` in the spec) applying the same check to
  the first four bytes of the string's byte sequence, indexing without a
  length check (so a short string panics with an index-out-of-bounds).

Bytes are modelled as `Nat`; every operation of the source only compares
bytes against constants, so the embedding agrees with `u8` semantics on
all values below 256 and no wrapping arithmetic occurs anywhere.
-/

/-- Rust `u8::is_ascii_uppercase`: the byte lies in `[65, 90]`. -/
def is_ascii_uppercase (b : Nat) : Bool := 65 ≤ b && b ≤ 90

/-- Rust `u8::is_ascii_lowercase`: the byte lies in `[97, 122]`. -/
def is_ascii_lowercase (b : Nat) : Bool := 97 ≤ b && b ≤ 122

/-- Rust `u8::is_ascii_alphabetic`: uppercase or lowercase ASCII letter. -/
def is_ascii_alphabetic (b : Nat) : Bool :=
  is_ascii_uppercase b || is_ascii_lowercase b

/-- The `ChunkType` struct of the source: four byte fields.  The Rust
field `private` is a Lean keyword, so it is named `priv` here. -/
structure ChunkType where
  ancillary : Nat
  priv : Nat
  reserved : Nat
  safe_to_copy : Nat
deriving DecidableEq, Repr

/-- `ChunkType::bytes`: the four bytes in positional order. -/
def ChunkType.bytes (c : ChunkType) : List Nat :=
  [c.ancillary, c.priv, c.reserved, c.safe_to_copy]

/-- `ChunkType::is_valid`: ancillary, private and safe-to-copy bytes are
ASCII alphabetic and the reserved byte is ASCII uppercase. -/
def ChunkType.is_valid (c : ChunkType) : Bool :=
  is_ascii_alphabetic c.ancillary &&
  is_ascii_alphabetic c.priv &&
  is_ascii_uppercase c.reserved &&
  is_ascii_alphabetic c.safe_to_copy

/-- `TryFrom<[u8; 4]> for ChunkType` (`try_from`): the loop over the four
bytes, returning `Err("Invalid Type Code")` at the first byte that is
neither uppercase nor lowercase ASCII, else the constructed instance. -/
def try_from (v0 v1 v2 v3 : Nat) : Except String ChunkType :=
  if !is_ascii_uppercase v0 && !is_ascii_lowercase v0 then
    Except.error "Invalid Type Code"
  else if !is_ascii_uppercase v1 && !is_ascii_lowercase v1 then
    Except.error "Invalid Type Code"
  else if !is_ascii_uppercase v2 && !is_ascii_lowercase v2 then
    Except.error "Invalid Type Code"
  else if !is_ascii_uppercase v3 && !is_ascii_lowercase v3 then
    Except.error "Invalid Type Code"
  else
    Except.ok ⟨v0, v1, v2, v3⟩

/-- Outcome of `FromStr::from_str`.  `indexOutOfBounds` models the Rust
panic raised by `str_bytes[i]` when the byte sequence is too short; the
source performs no length check. -/
inductive StrResult where
  | ok (c : ChunkType)
  | error (msg : String)
  | indexOutOfBounds
deriving DecidableEq, Repr

/-- `FromStr for ChunkType` (`from_str`) over the string's byte sequence:
the loop `for i in 0..4` reads `str_bytes[i]` (panicking when `i` is out
of bounds) and returns `Err("Invalid Type Code")` at the first byte that
is neither uppercase nor lowercase ASCII; on success the instance is
built from the first four bytes, ignoring the rest. -/
def from_str (bs : List Nat) : StrResult :=
  match bs[0]? with
  | none => StrResult.indexOutOfBounds
  | some b0 =>
    if !is_ascii_uppercase b0 && !is_ascii_lowercase b0 then
      StrResult.error "Invalid Type Code"
    else match bs[1]? with
    | none => StrResult.indexOutOfBounds
    | some b1 =>
      if !is_ascii_uppercase b1 && !is_ascii_lowercase b1 then
        StrResult.error "Invalid Type Code"
      else match bs[2]? with
      | none => StrResult.indexOutOfBounds
      | some b2 =>
        if !is_ascii_uppercase b2 && !is_ascii_lowercase b2 then
          StrResult.error "Invalid Type Code"
        else match bs[3]? with
        | none => StrResult.indexOutOfBounds
        | some b3 =>
          if !is_ascii_uppercase b3 && !is_ascii_lowercase b3 then
            StrResult.error "Invalid Type Code"
          else
            StrResult.ok ⟨b0, b1, b2, b3⟩

/-- A byte in the ASCII-letter ranges `[65, 90] ∪ [97, 122]`, the
propositional form used by the claims. -/
def IsLetter (b : Nat) : Prop :=
  (65 ≤ b ∧ b ≤ 90) ∨ (97 ≤ b ∧ b ≤ 122)

instance (b : Nat) : Decidable (IsLetter b) := by
  unfold IsLetter; infer_instance

lemma reject_check_false {b : Nat} (h : IsLetter b) :
    (!is_ascii_uppercase b && !is_ascii_lowercase b) = false := by
  rcases h with ⟨h1, h2⟩ | ⟨h1, h2⟩ <;>
    simp [is_ascii_uppercase, is_ascii_lowercase, h1, h2]

lemma reject_check_true {b : Nat} (h : ¬ IsLetter b) :
    (!is_ascii_uppercase b && !is_ascii_lowercase b) = true := by
  unfold IsLetter at h
  push_neg at h
  simp only [is_ascii_uppercase, is_ascii_lowercase, Bool.and_eq_true,
    Bool.not_eq_true', Bool.and_eq_false_iff, decide_eq_false_iff_not, not_le]
  omega

lemma letter_of_not_reject {b : Nat}
    (h : ¬ ((!is_ascii_uppercase b && !is_ascii_lowercase b) = true)) :
    IsLetter b := by
  by_contra hc
  exact h (reject_check_true hc)

lemma try_from_ok_of_letters {v0 v1 v2 v3 : Nat}
    (h0 : IsLetter v0) (h1 : IsLetter v1) (h2 : IsLetter v2) (h3 : IsLetter v3) :
    try_from v0 v1 v2 v3 = Except.ok ⟨v0, v1, v2, v3⟩ := by
  unfold try_from
  rw [reject_check_false h0, reject_check_false h1,
    reject_check_false h2, reject_check_false h3]
  rfl

lemma try_from_error_of_not_letter {v0 v1 v2 v3 : Nat}
    (h : ¬ IsLetter v0 ∨ ¬ IsLetter v1 ∨ ¬ IsLetter v2 ∨ ¬ IsLetter v3) :
    try_from v0 v1 v2 v3 = Except.error "Invalid Type Code" := by
  unfold try_from
  by_cases k0 : IsLetter v0
  · rw [reject_check_false k0]
    by_cases k1 : IsLetter v1
    · rw [reject_check_false k1]
      by_cases k2 : IsLetter v2
      · rw [reject_check_false k2]
        by_cases k3 : IsLetter v3
        · tauto
        · rw [reject_check_true k3]; rfl
      · rw [reject_check_true k2]; rfl
    · rw [reject_check_true k1]; rfl
  · rw [reject_check_true k0]; rfl

lemma try_from_ok_letters {v0 v1 v2 v3 : Nat} {c : ChunkType}
    (h : try_from v0 v1 v2 v3 = Except.ok c) :
    c = ⟨v0, v1, v2, v3⟩ ∧
      IsLetter v0 ∧ IsLetter v1 ∧ IsLetter v2 ∧ IsLetter v3 := by
  unfold try_from at h
  split_ifs at h with k0 k1 k2 k3
  injection h with h
  exact ⟨h.symm, letter_of_not_reject k0, letter_of_not_reject k1,
    letter_of_not_reject k2, letter_of_not_reject k3⟩

lemma from_str_cons4 (b0 b1 b2 b3 : Nat) (rest : List Nat) :
    from_str (b0 :: b1 :: b2 :: b3 :: rest) =
      match try_from b0 b1 b2 b3 with
      | Except.ok c => StrResult.ok c
      | Except.error e => StrResult.error e := by
  simp only [from_str, try_from, List.getElem?_cons_zero, List.getElem?_cons_succ]
  split_ifs <;> rfl

lemma try_from_cases (v0 v1 v2 v3 : Nat) :
    (∃ c, try_from v0 v1 v2 v3 = Except.ok c) ∨
      try_from v0 v1 v2 v3 = Except.error "Invalid Type Code" := by
  unfold try_from
  split_ifs <;> simp

lemma from_str_ok_shape {bs : List Nat} {c : ChunkType}
    (h : from_str bs = StrResult.ok c) :
    ∃ b0 b1 b2 b3 rest, bs = b0 :: b1 :: b2 :: b3 :: rest ∧
      c = ⟨b0, b1, b2, b3⟩ ∧
      IsLetter b0 ∧ IsLetter b1 ∧ IsLetter b2 ∧ IsLetter b3 := by
  match bs with
  | [] => exact StrResult.noConfusion h
  | [b0] =>
    unfold from_str at h
    simp only [List.getElem?_cons_zero, List.getElem?_cons_succ,
      List.getElem?_nil] at h
    split_ifs at h
  | [b0, b1] =>
    unfold from_str at h
    simp only [List.getElem?_cons_zero, List.getElem?_cons_succ,
      List.getElem?_nil] at h
    split_ifs at h
  | [b0, b1, b2] =>
    unfold from_str at h
    simp only [List.getElem?_cons_zero, List.getElem?_cons_succ,
      List.getElem?_nil] at h
    split_ifs at h
  | b0 :: b1 :: b2 :: b3 :: rest =>
    rw [from_str_cons4] at h
    rcases ht : try_from b0 b1 b2 b3 with e | c2 <;> rw [ht] at h
    · exact StrResult.noConfusion h
    · obtain ⟨hc, l0, l1, l2, l3⟩ := try_from_ok_letters ht
      have h2 : StrResult.ok c2 = StrResult.ok c := h
      injection h2 with h2
      exact ⟨b0, b1, b2, b3, rest, rfl, by rw [← h2]; exact hc, l0, l1, l2, l3⟩

lemma ok_letters {b0 b1 b2 b3 : Nat} {bs : List Nat} {c : ChunkType}
    (h : try_from b0 b1 b2 b3 = Except.ok c ∨ from_str bs = StrResult.ok c) :
    IsLetter c.ancillary ∧ IsLetter c.priv ∧
      IsLetter c.reserved ∧ IsLetter c.safe_to_copy := by
  rcases h with h | h
  · obtain ⟨hc, l0, l1, l2, l3⟩ := try_from_ok_letters h
    subst hc
    exact ⟨l0, l1, l2, l3⟩
  · obtain ⟨a0, a1, a2, a3, rest, _, hc, l0, l1, l2, l3⟩ := from_str_ok_shape h
    subst hc
    exact ⟨l0, l1, l2, l3⟩

lemma alpha_eq_true_iff (b : Nat) : is_ascii_alphabetic b = true ↔ IsLetter b := by
  simp [is_ascii_alphabetic, is_ascii_uppercase, is_ascii_lowercase, IsLetter]

lemma upper_eq_true_iff (b : Nat) :
    is_ascii_uppercase b = true ↔ 65 ≤ b ∧ b ≤ 90 := by
  simp [is_ascii_uppercase]

/-- C1: for every 4-byte array whose bytes all lie in `[65, 90]` or
`[97, 122]`, `try_from` succeeds and `bytes()` on the result yields
exactly the input bytes in order. -/
theorem from_bytes_roundtrip (b0 b1 b2 b3 : Nat)
    (h0 : IsLetter b0) (h1 : IsLetter b1) (h2 : IsLetter b2) (h3 : IsLetter b3) :
    ∃ c : ChunkType, try_from b0 b1 b2 b3 = Except.ok c ∧
      c.bytes = [b0, b1, b2, b3] :=
  ⟨⟨b0, b1, b2, b3⟩, try_from_ok_of_letters h0 h1 h2 h3, rfl⟩

/-- Witness for C1 at the concrete input `[82, 117, 83, 116]` ("RuSt"). -/
theorem from_bytes_roundtrip_witness :
    ∃ c : ChunkType, try_from 82 117 83 116 = Except.ok c ∧
      c.bytes = [82, 117, 83, 116] :=
  from_bytes_roundtrip 82 117 83 116 (by decide) (by decide) (by decide) (by decide)

/-- C2: for every 4-byte input with at least one byte outside
`[65, 90] ∪ [97, 122]`, both `try_from` on the array and `from_str` on a
text whose first 4 bytes are that input return the invalid-type-code
error, never an instance. -/
theorem constructors_reject (b0 b1 b2 b3 : Nat) (rest : List Nat)
    (h : ¬ IsLetter b0 ∨ ¬ IsLetter b1 ∨ ¬ IsLetter b2 ∨ ¬ IsLetter b3) :
    try_from b0 b1 b2 b3 = Except.error "Invalid Type Code" ∧
      from_str (b0 :: b1 :: b2 :: b3 :: rest) =
        StrResult.error "Invalid Type Code" := by
  have ht := try_from_error_of_not_letter h
  exact ⟨ht, by rw [from_str_cons4, ht]⟩

/-- Witness for C2 at the concrete input `[82, 117, 49, 116]` ("Ru1t"). -/
theorem constructors_reject_witness :
    try_from 82 117 49 116 = Except.error "Invalid Type Code" ∧
      from_str (82 :: 117 :: 49 :: 116 :: []) =
        StrResult.error "Invalid Type Code" :=
  constructors_reject 82 117 49 116 [] (by decide)

/-- C3: `is_valid` returns `true` iff byte 0 is an ASCII letter, byte 1
is an ASCII letter, byte 2 is an ASCII uppercase letter in `[65, 90]`,
and byte 3 is an ASCII letter; it is a total Bool-valued query. -/
theorem is_valid_iff_case_rules (c : ChunkType) :
    c.is_valid = true ↔
      IsLetter c.ancillary ∧ IsLetter c.priv ∧
        (65 ≤ c.reserved ∧ c.reserved ≤ 90) ∧ IsLetter c.safe_to_copy := by
  simp only [ChunkType.is_valid, Bool.and_eq_true, alpha_eq_true_iff,
    upper_eq_true_iff]
  tauto

/-- C4: for every text whose first 4 bytes are ASCII letters, `from_str`
and `try_from` on those first 4 bytes both succeed and produce the same
instance. -/
theorem from_text_from_bytes_agree (b0 b1 b2 b3 : Nat) (rest : List Nat)
    (h0 : IsLetter b0) (h1 : IsLetter b1) (h2 : IsLetter b2) (h3 : IsLetter b3) :
    ∃ c : ChunkType,
      from_str (b0 :: b1 :: b2 :: b3 :: rest) = StrResult.ok c ∧
        try_from b0 b1 b2 b3 = Except.ok c := by
  refine ⟨⟨b0, b1, b2, b3⟩, ?_, try_from_ok_of_letters h0 h1 h2 h3⟩
  rw [from_str_cons4, try_from_ok_of_letters h0 h1 h2 h3]

/-- Witness for C4 at the concrete input "RuSt" (`[82, 117, 83, 116]`). -/
theorem from_text_from_bytes_agree_witness :
    ∃ c : ChunkType,
      from_str (82 :: 117 :: 83 :: 116 :: []) = StrResult.ok c ∧
        try_from 82 117 83 116 = Except.ok c :=
  from_text_from_bytes_agree 82 117 83 116 []
    (by decide) (by decide) (by decide) (by decide)

/-- C5: on the empty text (0 bytes, fewer than 4), `from_str` does NOT
return an error value: it hits the out-of-bounds panic of `str_bytes[0]`,
because the source performs no length check.  This exhibits the code
contradicting the documented explicit-error contract for short inputs. -/
theorem from_str_empty_input_out_of_bounds :
    from_str [] = StrResult.indexOutOfBounds := rfl

/-- C6: for every text with at least 4 bytes, the result of `from_str`
depends only on the first 4 bytes: two texts agreeing on their first 4
bytes yield identical results whatever follows. -/
theorem from_str_depends_on_first_four (b0 b1 b2 b3 : Nat) (r1 r2 : List Nat) :
    from_str (b0 :: b1 :: b2 :: b3 :: r1) =
      from_str (b0 :: b1 :: b2 :: b3 :: r2) := by
  rw [from_str_cons4, from_str_cons4]

/-- C7: every successfully constructed instance, from either construction
path, has all four bytes in `[65, 90] ∪ [97, 122]`. -/
theorem constructed_instance_invariant (b0 b1 b2 b3 : Nat) (bs : List Nat)
    (c : ChunkType)
    (h : try_from b0 b1 b2 b3 = Except.ok c ∨ from_str bs = StrResult.ok c) :
    IsLetter c.ancillary ∧ IsLetter c.priv ∧
      IsLetter c.reserved ∧ IsLetter c.safe_to_copy :=
  ok_letters h

/-- Witness for C7 at the concrete input `[82, 117, 83, 116]` ("RuSt"). -/
theorem constructed_instance_invariant_witness :
    IsLetter (ChunkType.mk 82 117 83 116).ancillary ∧
      IsLetter (ChunkType.mk 82 117 83 116).priv ∧
      IsLetter (ChunkType.mk 82 117 83 116).reserved ∧
      IsLetter (ChunkType.mk 82 117 83 116).safe_to_copy :=
  constructed_instance_invariant 82 117 83 116 [] ⟨82, 117, 83, 116⟩
    (Or.inl rfl)

/-- C8: two instances are equal iff all four bytes are equal
position-for-position (ancillary, private, reserved, safe-to-copy). -/
theorem eq_iff_fields_eq (c1 c2 : ChunkType) :
    c1 = c2 ↔
      (c1.ancillary = c2.ancillary ∧ c1.priv = c2.priv ∧
        c1.reserved = c2.reserved ∧ c1.safe_to_copy = c2.safe_to_copy) := by
  cases c1
  cases c2
  simp [ChunkType.mk.injEq, and_assoc]

/-- C9: for every successfully constructed instance (either path),
`is_valid` is `true` iff the reserved byte (position 2) lies in
`[65, 90]`: the other three conjuncts are guaranteed by construction. -/
theorem constructed_is_valid_iff_reserved_uppercase (b0 b1 b2 b3 : Nat)
    (bs : List Nat) (c : ChunkType)
    (h : try_from b0 b1 b2 b3 = Except.ok c ∨ from_str bs = StrResult.ok c) :
    (c.is_valid = true ↔ (65 ≤ c.reserved ∧ c.reserved ≤ 90)) := by
  obtain ⟨l0, l1, l2, l3⟩ := ok_letters h
  simp [ChunkType.is_valid, Bool.and_eq_true, alpha_eq_true_iff,
    upper_eq_true_iff, l0, l1, l3]

/-- Witness for C9 at the concrete input `[82, 117, 83, 116]` ("RuSt"). -/
theorem constructed_is_valid_iff_reserved_uppercase_witness :
    ((ChunkType.mk 82 117 83 116).is_valid = true ↔
      (65 ≤ (ChunkType.mk 82 117 83 116).reserved ∧
        (ChunkType.mk 82 117 83 116).reserved ≤ 90)) :=
  constructed_is_valid_iff_reserved_uppercase 82 117 83 116 []
    ⟨82, 117, 83, 116⟩ (Or.inl rfl)

/-- C10: for every text with at least 4 bytes, `from_str` never reaches
the out-of-bounds panic: it totally returns either an instance or the
invalid-type-code error. -/
theorem from_str_total_on_long_input (bs : List Nat) (h : 4 ≤ bs.length) :
    (∃ c, from_str bs = StrResult.ok c) ∨
      from_str bs = StrResult.error "Invalid Type Code" := by
  match bs with
  | [] => simp at h
  | [b0] => simp at h
  | [b0, b1] => simp at h
  | [b0, b1, b2] => simp at h
  | b0 :: b1 :: b2 :: b3 :: rest =>
    rw [from_str_cons4]
    rcases try_from_cases b0 b1 b2 b3 with ⟨c, hc⟩ | he
    · rw [hc]
      exact Or.inl ⟨c, rfl⟩
    · rw [he]
      exact Or.inr rfl

/-- Witness for C10 at the concrete input "RuSt" (`[82, 117, 83, 116]`). -/
theorem from_str_total_on_long_input_witness :
    (∃ c, from_str [82, 117, 83, 116] = StrResult.ok c) ∨
      from_str [82, 117, 83, 116] = StrResult.error "Invalid Type Code" :=
  from_str_total_on_long_input [82, 117, 83, 116] (by decide)
